import Mathlib

/-!
Shallow embedding of the doctor-appointment-system Express application
(`src/index.js`) and verification of its specification.

The app keeps one mutable in-memory list of appointments and a fixed
doctor catalog, and exposes five handlers: book (POST), list by patient
(GET), list by doctor (GET), cancel (DELETE) and modify (PUT).  Each
handler is embedded as a pure function from the current appointment list
(and the parsed request fields) to a response together with the new list.
Request body fields are `Option String` (`none` is an absent JSON field);
JavaScript truthiness on such a field (`!x`) is `truthy` below, which is
false exactly for an absent field and for the empty string.
-/

namespace DoctorApp

/-- Patient sub-object of an appointment: `{ firstName, lastName, email }`. -/
structure Patient where
  firstName : String
  lastName : String
  email : String
deriving DecidableEq, Repr

/-- An appointment record as built by the POST handler:
`{ patient, timeSlot, doctorName, id }` (`src/index.js` lines 62-67). -/
structure Appointment where
  patient : Patient
  timeSlot : String
  doctorName : String
  id : Nat
deriving DecidableEq, Repr

/-- A doctor catalog entry: a name and the list of bookable slot labels. -/
structure Doctor where
  name : String
  slots : List String
deriving DecidableEq, Repr

/-- First catalog entry (`src/index.js` line 11). -/
def drSmith : Doctor :=
  { name := "Dr. Smith",
    slots := ["9:00 AM - 10:00 AM", "10:00 AM - 11:00 AM", "2:00 PM - 3:00 PM"] }

/-- Second catalog entry (`src/index.js` line 12). -/
def drJohnson : Doctor :=
  { name := "Dr. Johnson",
    slots := ["11:00 AM - 12:00 PM", "1:00 PM - 2:00 PM", "3:00 PM - 4:00 PM"] }

/-- The fixed doctor catalog (`src/index.js` lines 10-13). -/
def doctors : List Doctor := [drSmith, drJohnson]

/-- The mutable store: the `appointments` array. -/
abbrev Store := List Appointment

/-- An error response: HTTP status plus the `error` string of the JSON body. -/
structure ErrorResp where
  status : Nat
  error : String
deriving DecidableEq, Repr

/-- JavaScript truthiness of a request body field of string type:
`undefined` (absent) and `""` are falsy, every other string is truthy. -/
def truthy : Option String → Bool
  | none => false
  | some s => s ≠ ""

/-- The string value of a present field (`""` for an absent one; only used
after a `truthy` check has passed, mirroring the JavaScript handlers). -/
def val (x : Option String) : String := x.getD ""

/-- A character matched by the regex class `[^\s@]`: not ASCII whitespace
and not `@`. -/
def emailChar (c : Char) : Bool :=
  !(c == ' ' || c == '\t' || c == '\n' || c == '\r' || c == '\x0b' || c == '\x0c') && c != '@'

/-- Split a character list at its first `@`, returning the parts before and
after it, or `none` when there is no `@`. -/
def splitLocal : List Char → Option (List Char × List Char)
  | [] => none
  | c :: rest =>
    if c == '@' then some ([], rest)
    else match splitLocal rest with
      | none => none
      | some (loc, dom) => some (c :: loc, dom)

/-- `isValidEmail` (`src/index.js` lines 16-18): whether the string matches
the anchored regex `[^\s@]+@[^\s@]+\.[^\s@]+` (with `\s` read as ASCII
whitespace).  Equivalently: a nonempty `@`-free, whitespace-free local
part, one `@`, and a domain part of such characters containing a `.` that
is neither its first nor its last character. -/
def isValidEmail (email : String) : Bool :=
  match splitLocal email.toList with
  | none => false
  | some (loc, dom) =>
    !loc.isEmpty && loc.all emailChar && dom.all emailChar &&
      ((dom.drop 1).dropLast.contains '.')

/-- The predicate of `findAppointment` (`src/index.js` lines 21-26): the
appointment's patient email equals `email`, and either `timeSlot` is falsy
or the appointment's slot equals it. -/
def findPred (email timeSlot : String) (apt : Appointment) : Bool :=
  apt.patient.email == email && (timeSlot == "" || apt.timeSlot == timeSlot)

/-- `findAppointment` (`src/index.js` lines 21-26): first appointment of the
store matching `findPred`. -/
def findAppointment (s : Store) (email timeSlot : String) : Option Appointment :=
  s.find? (findPred email timeSlot)

/-- The double-booking predicate of the POST handler (`src/index.js`
lines 53-56): same doctor and same slot. -/
def conflictPred (doctorName timeSlot : String) (apt : Appointment) : Bool :=
  apt.doctorName == doctorName && apt.timeSlot == timeSlot

/-- The appointment object built by the POST handler (`src/index.js`
lines 62-67): the request fields verbatim and `id = appointments.length + 1`,
where `s` is the store before insertion. -/
def newAppointment (s : Store) (firstName lastName email timeSlot doctorName : Option String) :
    Appointment :=
  { patient := { firstName := val firstName, lastName := val lastName, email := val email },
    timeSlot := val timeSlot, doctorName := val doctorName, id := s.length + 1 }

/-- POST `/api/appointments` (`src/index.js` lines 29-71).  Checks, in
order: all five fields truthy; email valid; doctor in the catalog; slot in
the doctor's slot list; no existing appointment with the same
(doctorName, timeSlot).  On success appends the new appointment with
`id = appointments.length + 1` and returns it (HTTP 201, modelled by
`Except.ok`). -/
def book (s : Store) (firstName lastName email timeSlot doctorName : Option String) :
    Except ErrorResp Appointment × Store :=
  if truthy firstName && truthy lastName && truthy email &&
      truthy timeSlot && truthy doctorName then
    if isValidEmail (val email) then
      match doctors.find? (fun d => d.name == val doctorName) with
      | none => (.error ⟨404, "Doctor not found"⟩, s)
      | some doctor =>
        if doctor.slots.contains (val timeSlot) then
          match s.find? (conflictPred (val doctorName) (val timeSlot)) with
          | some _ => (.error ⟨400, "Time slot already booked"⟩, s)
          | none =>
            (.ok (newAppointment s firstName lastName email timeSlot doctorName),
             s ++ [newAppointment s firstName lastName email timeSlot doctorName])
        else (.error ⟨400, "Invalid or unavailable time slot"⟩, s)
    else (.error ⟨400, "Invalid email format"⟩, s)
  else (.error ⟨400, "All fields are required"⟩, s)

/-- GET `/api/appointments/patient/:email` (`src/index.js` lines 74-90).
The email is a URL parameter, hence always a present string.  The handler
reads the store and never writes it, so it is embedded as a pure function
of the store. -/
def listByPatient (s : Store) (email : String) : Except ErrorResp (List Appointment) :=
  if isValidEmail email then
    let patientAppointments := s.filter (fun apt => apt.patient.email == email)
    if patientAppointments.length = 0 then .error ⟨404, "No appointments found"⟩
    else .ok patientAppointments
  else .error ⟨400, "Invalid email format"⟩

/-- GET `/api/appointments/doctor/:doctorName` (`src/index.js` lines
93-106).  Read-only, like `listByPatient`. -/
def listByDoctor (s : Store) (doctorName : String) : Except ErrorResp (List Appointment) :=
  match doctors.find? (fun d => d.name == doctorName) with
  | none => .error ⟨404, "Doctor not found"⟩
  | some _ => .ok (s.filter (fun apt => apt.doctorName == doctorName))

/-- The predicate of the DELETE handler's `findIndex` (`src/index.js`
lines 116-119): same patient email and same time slot. -/
def cancelPred (email timeSlot : String) (apt : Appointment) : Bool :=
  apt.patient.email == email && apt.timeSlot == timeSlot

/-- DELETE `/api/appointments` (`src/index.js` lines 109-127).  Both fields
truthy; `findIndex` over (patient email, timeSlot); `splice(idx, 1)`
removes exactly the found element. -/
def cancel (s : Store) (email timeSlot : Option String) :
    Except ErrorResp String × Store :=
  if truthy email && truthy timeSlot then
    match s.findIdx? (cancelPred (val email) (val timeSlot)) with
    | none => (.error ⟨404, "Appointment not found"⟩, s)
    | some i => (.ok "Appointment cancelled successfully", s.eraseIdx i)
  else (.error ⟨400, "Email and time slot are required"⟩, s)

/-- Replace the `timeSlot` of the first appointment matching
`findPred email origSlot` by `newSlot`, leaving everything else unchanged.
This is the effect of `appointment.timeSlot = newTimeSlot` in the PUT
handler, where `appointment` is the reference returned by
`findAppointment`. -/
def updateFirstSlot (email origSlot newSlot : String) : Store → Store
  | [] => []
  | apt :: rest =>
    if findPred email origSlot apt then { apt with timeSlot := newSlot } :: rest
    else apt :: updateFirstSlot email origSlot newSlot rest

/-- PUT `/api/appointments` (`src/index.js` lines 130-159).  All three
fields truthy; locate by (email, originalTimeSlot) via `findAppointment`;
look up the appointment's doctor (an absent doctor would make
`doctor.slots` throw a TypeError, surfaced by Express as HTTP 500 with the
store untouched — unreachable from reachable stores); check `newTimeSlot`
is one of the doctor's slots; check no appointment of that doctor already
holds `newTimeSlot` (a scan that does not exclude the located appointment
itself); then mutate the located appointment's `timeSlot` in place and
return it. -/
def modify (s : Store) (email origSlot newSlot : Option String) :
    Except ErrorResp Appointment × Store :=
  if truthy email && truthy origSlot && truthy newSlot then
    match findAppointment s (val email) (val origSlot) with
    | none => (.error ⟨404, "Original appointment not found"⟩, s)
    | some apt =>
      match doctors.find? (fun d => d.name == apt.doctorName) with
      | none => (.error ⟨500, "Internal Server Error"⟩, s)
      | some doctor =>
        if doctor.slots.contains (val newSlot) then
          if s.any (conflictPred apt.doctorName (val newSlot)) then
            (.error ⟨400, "New time slot is already booked"⟩, s)
          else
            (.ok { apt with timeSlot := val newSlot },
             updateFirstSlot (val email) (val origSlot) (val newSlot) s)
        else (.error ⟨400, "Invalid or unavailable new time slot"⟩, s)
  else (.error ⟨400, "All fields are required"⟩, s)

/-- A mutating request: one of the three handlers that can change the
store (the two GET handlers never write it). -/
inductive Request
  | book (firstName lastName email timeSlot doctorName : Option String)
  | cancel (email timeSlot : Option String)
  | modify (email origSlot newSlot : Option String)

/-- The store after serving one request. -/
def step (s : Store) : Request → Store
  | .book f l e t d => (book s f l e t d).2
  | .cancel e t => (cancel s e t).2
  | .modify e o n => (modify s e o n).2

/-- Stores reachable from the empty appointment list by any sequence of
book, cancel and modify requests. -/
inductive Reachable : Store → Prop
  | empty : Reachable []
  | next (s : Store) (r : Request) : Reachable s → Reachable (step s r)

/-- Stores reachable from the empty list using only book and modify
(no cancellations). -/
inductive ReachableNoCancel : Store → Prop
  | empty : ReachableNoCancel []
  | book (s : Store) (f l e t d : Option String) :
      ReachableNoCancel s → ReachableNoCancel (step s (.book f l e t d))
  | modify (s : Store) (e o n : Option String) :
      ReachableNoCancel s → ReachableNoCancel (step s (.modify e o n))

/-- The double-booking key of an appointment. -/
def bookingKey (apt : Appointment) : String × String := (apt.doctorName, apt.timeSlot)

/-- The no-double-booking invariant: all (doctorName, timeSlot) pairs in
the store are pairwise distinct. -/
def SlotUnique (s : Store) : Prop := (s.map bookingKey).Nodup

/-- Sequential-id property: the stored ids are exactly 1..n in order. -/
def IdsSequential (s : Store) : Prop :=
  s.map Appointment.id = List.range' 1 s.length

/-- Concrete request: Ann books Dr. Smith's 9-10 slot. -/
def reqBook1 : Request :=
  .book (some "Ann") (some "A") (some "a@b.c") (some "9:00 AM - 10:00 AM") (some "Dr. Smith")

/-- Concrete request: Bob books Dr. Smith's 10-11 slot. -/
def reqBook2 : Request :=
  .book (some "Bob") (some "B") (some "d@e.f") (some "10:00 AM - 11:00 AM") (some "Dr. Smith")

/-- Concrete request: Ann cancels her 9-10 appointment. -/
def reqCancel1 : Request := .cancel (some "a@b.c") (some "9:00 AM - 10:00 AM")

/-- Concrete request: Cay books Dr. Smith's freed 9-10 slot. -/
def reqBook3 : Request :=
  .book (some "Cay") (some "C") (some "g@h.i") (some "9:00 AM - 10:00 AM") (some "Dr. Smith")

/-- The store after Ann's and Bob's bookings. -/
def pairStore : Store := step (step [] reqBook1) reqBook2

/-- The store after booking Ann and Bob, cancelling Ann, and booking Cay:
both remaining appointments carry id 2. -/
def reuseStore : Store := step (step (step (step [] reqBook1) reqBook2) reqCancel1) reqBook3

/-- Ann's appointment record as created by `reqBook1` on the empty store. -/
def aptAnn : Appointment :=
  { patient := { firstName := "Ann", lastName := "A", email := "a@b.c" },
    timeSlot := "9:00 AM - 10:00 AM", doctorName := "Dr. Smith", id := 1 }

/-- Ann's appointment after a successful move to the 2-3 slot. -/
def aptAnnMoved : Appointment :=
  { patient := { firstName := "Ann", lastName := "A", email := "a@b.c" },
    timeSlot := "2:00 PM - 3:00 PM", doctorName := "Dr. Smith", id := 1 }

/-- A one-appointment store holding only Ann's appointment. -/
def selfStore : Store := [aptAnn]

/-- Jane's appointment in Dr. Smith's 2-3 slot. -/
def aptJane : Appointment :=
  { patient := { firstName := "Jane", lastName := "Doe", email := "jane@x.y" },
    timeSlot := "2:00 PM - 3:00 PM", doctorName := "Dr. Smith", id := 2 }

/-- A two-appointment store: Ann at 9-10 and Jane at 2-3, both with
Dr. Smith. -/
def annJaneStore : Store := [aptAnn, aptJane]

/-- A successful `find?` splits the list around the found element, with no
earlier element satisfying the predicate. -/
theorem find?_decomp {α : Type} {p : α → Bool} {l : List α} {a : α}
    (h : l.find? p = some a) :
    ∃ pre post, l = pre ++ a :: post ∧ ∀ b ∈ pre, p b = false := by
  induction l with
  | nil => simp at h
  | cons x xs ih =>
    by_cases hx : p x = true
    · rw [List.find?_cons_of_pos _ hx] at h
      cases h
      exact ⟨[], xs, rfl, by simp⟩
    · rw [List.find?_cons_of_neg _ hx] at h
      obtain ⟨pre, post, rfl, hpre⟩ := ih h
      refine ⟨x :: pre, post, rfl, ?_⟩
      intro b hb
      rcases List.mem_cons.mp hb with rfl | hb
      · exact Bool.not_eq_true _ ▸ hx
      · exact hpre b hb

/-- `find?` over a list split around a first match returns that match. -/
theorem find?_append_cons {α : Type} {p : α → Bool} {pre post : List α} {a : α}
    (hpre : ∀ b ∈ pre, p b = false) (ha : p a = true) :
    (pre ++ a :: post).find? p = some a := by
  have h1 : pre.find? p = none := List.find?_eq_none.mpr fun b hb => by simp [hpre b hb]
  simp [List.find?_append, h1, List.find?_cons_of_pos _ ha]

/-- `findIdx?` over a list split around a first match returns the length of
the earlier part. -/
theorem findIdx?_append_cons {α : Type} {p : α → Bool} {pre post : List α} {a : α}
    (hpre : ∀ b ∈ pre, p b = false) (ha : p a = true) :
    (pre ++ a :: post).findIdx? p = some pre.length := by
  induction pre with
  | nil => simp [ha]
  | cons x xs ih =>
    have hx : p x = false := hpre x (by simp)
    have ihx := ih fun b hb => hpre b (List.mem_cons_of_mem x hb)
    simp only [List.cons_append, List.findIdx?_cons, hx, Bool.false_eq_true, if_false,
      List.findIdx?_start_succ, ihx, Option.map_some', List.length_cons]

/-- Removing the element at the index of the split removes exactly it. -/
theorem eraseIdx_append_cons {α : Type} (pre : List α) (a : α) (post : List α) :
    (pre ++ a :: post).eraseIdx pre.length = pre ++ post := by
  induction pre with
  | nil => rfl
  | cons x xs ih => simpa using ih

/-- `updateFirstSlot` on a list split around a first `findPred` match
rewrites exactly that element's `timeSlot`. -/
theorem updateFirstSlot_append_cons (e o n : String) (pre : Store) (apt : Appointment)
    (post : Store) (hpre : ∀ b ∈ pre, findPred e o b = false)
    (ha : findPred e o apt = true) :
    updateFirstSlot e o n (pre ++ apt :: post) =
      pre ++ { apt with timeSlot := n } :: post := by
  induction pre with
  | nil => simp [updateFirstSlot, ha]
  | cons x xs ih =>
    have hx : findPred e o x = false := hpre x (by simp)
    have ihx := ih fun b hb => hpre b (List.mem_cons_of_mem x hb)
    simp [updateFirstSlot, hx, ihx]

/-- `updateFirstSlot` never changes the ids of the stored appointments. -/
theorem updateFirstSlot_map_id (e o n : String) (s : Store) :
    (updateFirstSlot e o n s).map Appointment.id = s.map Appointment.id := by
  induction s with
  | nil => rfl
  | cons x xs ih =>
    by_cases hx : findPred e o x = true <;> simp [updateFirstSlot, hx, ih]

/-- `updateFirstSlot` never changes the number of stored appointments. -/
theorem updateFirstSlot_length (e o n : String) (s : Store) :
    (updateFirstSlot e o n s).length = s.length := by
  have h := congrArg List.length (updateFirstSlot_map_id e o n s)
  simpa using h

/-- `book` either returns an error and leaves the store alone, or passes
all five checks and appends the new appointment. -/
theorem book_cases (s : Store) (f l e t d : Option String) :
    (∃ err, book s f l e t d = (Except.error err, s)) ∨
    (s.find? (conflictPred (val d) (val t)) = none ∧
      book s f l e t d =
        (Except.ok (newAppointment s f l e t d), s ++ [newAppointment s f l e t d])) := by
  unfold book
  repeat' split
  all_goals first
    | exact Or.inl ⟨_, rfl⟩
    | exact Or.inr ⟨by assumption, rfl⟩

/-- `cancel` either returns an error and leaves the store alone, or finds
an index and erases exactly it. -/
theorem cancel_cases (s : Store) (e t : Option String) :
    (∃ err, cancel s e t = (Except.error err, s)) ∨
    (∃ i, s.findIdx? (cancelPred (val e) (val t)) = some i ∧
      cancel s e t = (Except.ok "Appointment cancelled successfully", s.eraseIdx i)) := by
  unfold cancel
  repeat' split
  all_goals first
    | exact Or.inl ⟨_, rfl⟩
    | exact Or.inr ⟨_, by assumption, rfl⟩

/-- `modify` either returns an error and leaves the store alone, or locates
an appointment, passes the conflict scan, and rewrites its slot. -/
theorem modify_cases (s : Store) (e o n : Option String) :
    (∃ err, modify s e o n = (Except.error err, s)) ∨
    (∃ apt, findAppointment s (val e) (val o) = some apt ∧
      s.any (conflictPred apt.doctorName (val n)) = false ∧
      modify s e o n =
        (Except.ok { apt with timeSlot := val n },
         updateFirstSlot (val e) (val o) (val n) s)) := by
  unfold modify
  repeat' split
  all_goals first
    | exact Or.inl ⟨_, rfl⟩
    | exact Or.inr ⟨_, by assumption, Bool.eq_false_iff.mpr ‹¬ _›, rfl⟩

/-- A passed conflict scan means no stored appointment carries the given
booking key. -/
theorem conflictPred_false_key {s : Store} {dn ts : String}
    (h : ∀ a ∈ s, conflictPred dn ts a = false) :
    ∀ a ∈ s, bookingKey a ≠ (dn, ts) := by
  intro a ha hk
  have h1 := h a ha
  have hd : a.doctorName = dn := congrArg Prod.fst hk
  have ht : a.timeSlot = ts := congrArg Prod.snd hk
  simp [conflictPred, hd, ht] at h1

/-- A successful `book` preserves the no-double-booking invariant. -/
theorem book_preserves_slotUnique (s : Store) (f l e t d : Option String)
    (h : SlotUnique s) : SlotUnique (book s f l e t d).2 := by
  rcases book_cases s f l e t d with ⟨err, heq⟩ | ⟨hnone, heq⟩
  · rw [heq]; exact h
  · rw [heq]
    have hno : ∀ a ∈ s, conflictPred (val d) (val t) a = false := by
      intro a ha
      simpa using List.find?_eq_none.mp hnone a ha
    have hkey := conflictPred_false_key hno
    unfold SlotUnique at h ⊢
    rw [List.map_append, List.nodup_append]
    refine ⟨h, by simp, ?_⟩
    intro x hx
    obtain ⟨a, ha, rfl⟩ := List.mem_map.mp hx
    simpa [newAppointment, bookingKey] using hkey a ha

/-- `cancel` preserves the no-double-booking invariant. -/
theorem cancel_preserves_slotUnique (s : Store) (e t : Option String)
    (h : SlotUnique s) : SlotUnique (cancel s e t).2 := by
  rcases cancel_cases s e t with ⟨err, heq⟩ | ⟨i, _, heq⟩
  · rw [heq]; exact h
  · rw [heq]
    exact List.Nodup.sublist ((List.eraseIdx_sublist s i).map bookingKey) h

/-- A successful `modify` preserves the no-double-booking invariant. -/
theorem modify_preserves_slotUnique (s : Store) (e o n : Option String)
    (h : SlotUnique s) : SlotUnique (modify s e o n).2 := by
  rcases modify_cases s e o n with ⟨err, heq⟩ | ⟨apt, hfind, hany, heq⟩
  · rw [heq]; exact h
  · rw [heq]
    obtain ⟨pre, post, rfl, hpre⟩ := find?_decomp hfind
    have hpa : findPred (val e) (val o) apt = true := List.find?_some hfind
    rw [updateFirstSlot_append_cons _ _ _ _ _ _ hpre hpa]
    have hno : ∀ a ∈ pre ++ apt :: post,
        conflictPred apt.doctorName (val n) a = false := by
      intro a ha
      exact Bool.eq_false_iff.mpr (List.any_eq_false.mp hany a ha)
    have hkey := conflictPred_false_key hno
    unfold SlotUnique at h ⊢
    rw [List.map_append, List.map_cons] at h ⊢
    rw [List.nodup_middle] at h ⊢
    rw [List.nodup_cons] at h ⊢
    refine ⟨?_, h.2⟩
    intro hx
    rw [← List.map_append] at hx
    obtain ⟨a, ha, hk⟩ := List.mem_map.mp hx
    have ha' : a ∈ pre ++ apt :: post := by
      rcases List.mem_append.mp ha with h1 | h1
      · exact List.mem_append.mpr (Or.inl h1)
      · exact List.mem_append.mpr (Or.inr (List.mem_cons_of_mem apt h1))
    exact hkey a ha' (by simpa [bookingKey] using hk)

/-- C1: in every store reachable from the empty list by book, cancel and
modify requests, no two appointments share a (doctorName, timeSlot) pair;
moreover `book` never succeeds when some stored appointment already holds
the requested (doctor, slot), and `modify` only succeeds when no stored
appointment held the returned appointment's (doctor, slot) beforehand. -/
theorem no_double_booking :
    (∀ s : Store, Reachable s → SlotUnique s) ∧
    (∀ (s : Store) (f l e t d : Option String) (apt : Appointment),
      (∃ a ∈ s, a.doctorName = val d ∧ a.timeSlot = val t) →
      (book s f l e t d).1 ≠ Except.ok apt) ∧
    (∀ (s : Store) (e o n : Option String) (apt' : Appointment),
      (modify s e o n).1 = Except.ok apt' →
      ∀ a ∈ s, ¬(a.doctorName = apt'.doctorName ∧ a.timeSlot = apt'.timeSlot)) := by
  refine ⟨?_, ?_, ?_⟩
  · intro s hs
    induction hs with
    | empty => exact List.nodup_nil
    | next s r _ ih =>
      cases r with
      | book f l e t d => exact book_preserves_slotUnique s f l e t d ih
      | cancel e t => exact cancel_preserves_slotUnique s e t ih
      | modify e o n => exact modify_preserves_slotUnique s e o n ih
  · intro s f l e t d apt ⟨a, ha, hd, ht⟩ hok
    rcases book_cases s f l e t d with ⟨err, heq⟩ | ⟨hnone, heq⟩
    · rw [heq] at hok; exact absurd hok (by simp)
    · have := List.find?_eq_none.mp hnone a ha
      exact this (by simp [conflictPred, hd, ht])
  · intro s e o n apt' hok a ha ⟨hd, ht⟩
    rcases modify_cases s e o n with ⟨err, heq⟩ | ⟨apt, hfind, hany, heq⟩
    · rw [heq] at hok; exact absurd hok (by simp)
    · rw [heq] at hok
      have hapt : apt' = { apt with timeSlot := val n } := by
        simpa using hok.symm
      have hno : ∀ b ∈ s, conflictPred apt.doctorName (val n) b = false := by
        intro b hb
        exact Bool.eq_false_iff.mpr (List.any_eq_false.mp hany b hb)
      have := hno a ha
      rw [hapt] at hd ht
      simp [conflictPred, hd, ht] at this

/-- Witness for `no_double_booking`: the two-booking store is reachable
and duplicate-free; booking Dr. Smith's taken 9-10 slot cannot succeed;
and the successful move of Ann to 2-3 had no prior holder of that slot. -/
theorem no_double_booking_witness :
    SlotUnique pairStore ∧
    (book pairStore (some "X") (some "Y") (some "z@w.v") (some "9:00 AM - 10:00 AM")
        (some "Dr. Smith")).1 ≠ Except.ok aptAnn ∧
    ¬(aptAnn.doctorName = aptAnnMoved.doctorName ∧ aptAnn.timeSlot = aptAnnMoved.timeSlot) := by
  refine ⟨?_, ?_, ?_⟩
  · exact no_double_booking.1 pairStore (by
      unfold pairStore
      exact Reachable.next _ _ (Reachable.next _ _ Reachable.empty))
  · exact no_double_booking.2.1 pairStore _ _ _ _ _ aptAnn (by decide)
  · exact no_double_booking.2.2 pairStore (some "a@b.c") (some "9:00 AM - 10:00 AM")
      (some "2:00 PM - 3:00 PM") aptAnnMoved (by rfl) aptAnn (by decide)

/-- A successful `book` keeps ids sequential: the new id is the
pre-insertion count plus one. -/
theorem book_preserves_idsSequential (s : Store) (f l e t d : Option String)
    (h : IdsSequential s) : IdsSequential (book s f l e t d).2 := by
  rcases book_cases s f l e t d with ⟨err, heq⟩ | ⟨hnone, heq⟩
  · rw [heq]; exact h
  · rw [heq]
    unfold IdsSequential at h ⊢
    rw [List.map_append, h, List.length_append]
    simp [newAppointment, List.range'_concat, Nat.add_comm]

/-- `modify` never changes ids or the store's length. -/
theorem modify_preserves_idsSequential (s : Store) (e o n : Option String)
    (h : IdsSequential s) : IdsSequential (modify s e o n).2 := by
  rcases modify_cases s e o n with ⟨err, heq⟩ | ⟨apt, hfind, hany, heq⟩
  · rw [heq]; exact h
  · rw [heq]
    unfold IdsSequential at h ⊢
    rw [updateFirstSlot_map_id, updateFirstSlot_length]
    exact h

/-- C2 (counterexample): book Ann and Bob, cancel Ann, book Cay — the
store is reachable, Cay's appointment is assigned id 2 even though Bob
already holds id 2, so ids are neither pairwise distinct nor unreused. -/
theorem id_reuse_counterexample :
    Reachable reuseStore ∧ reuseStore.map Appointment.id = [2, 2] ∧
    ¬ (reuseStore.map Appointment.id).Nodup := by
  refine ⟨?_, by decide, by decide⟩
  unfold reuseStore
  exact Reachable.next _ _ (Reachable.next _ _ (Reachable.next _ _
    (Reachable.next _ _ Reachable.empty)))

/-- C2 (amended): ids are assigned sequentially at creation
(`id = count + 1`), and in every store reachable without cancellation the
ids are exactly 1..n in insertion order, hence pairwise distinct and never
reassigned; a cancellation shrinks the count, after which `book` may reuse
an id. -/
theorem ids_sequential_without_cancel (s : Store) (h : ReachableNoCancel s) :
    s.map Appointment.id = List.range' 1 s.length ∧ (s.map Appointment.id).Nodup := by
  have hs : IdsSequential s := by
    induction h with
    | empty => rfl
    | book s f l e t d _ ih => exact book_preserves_idsSequential s f l e t d ih
    | modify s e o n _ ih => exact modify_preserves_idsSequential s e o n ih
  refine ⟨hs, ?_⟩
  rw [hs]
  exact List.nodup_range' 1 s.length

/-- Witness for `ids_sequential_without_cancel` on the concrete
two-booking store. -/
theorem ids_sequential_witness :
    pairStore.map Appointment.id = List.range' 1 pairStore.length ∧
    (pairStore.map Appointment.id).Nodup :=
  ids_sequential_without_cancel pairStore (by
    unfold pairStore reqBook1 reqBook2
    exact ReachableNoCancel.book _ _ _ _ _ _
      (ReachableNoCancel.book _ _ _ _ _ _ ReachableNoCancel.empty))

/-- C3 (counterexample): on the one-appointment store, moving Ann from
9-10 to 9-10 locates her appointment, the slot is in Dr. Smith's catalog,
and no appointment other than the located one holds the slot — yet the
handler answers with the Conflict error, because its scan matched the
located appointment itself. -/
theorem modify_self_conflict_counterexample :
    findAppointment selfStore "a@b.c" "9:00 AM - 10:00 AM" = some aptAnn ∧
    doctors.find? (fun d => d.name == aptAnn.doctorName) = some drSmith ∧
    drSmith.slots.contains "9:00 AM - 10:00 AM" = true ∧
    (¬ ∃ a ∈ selfStore, a ≠ aptAnn ∧ a.doctorName = aptAnn.doctorName ∧
        a.timeSlot = "9:00 AM - 10:00 AM") ∧
    (modify selfStore (some "a@b.c") (some "9:00 AM - 10:00 AM")
        (some "9:00 AM - 10:00 AM")).1 =
      Except.error ⟨400, "New time slot is already booked"⟩ :=
  ⟨by decide, by decide, by decide, by decide, by rfl⟩

/-- C3 (amended): when the located appointment exists, `newTimeSlot` is in
its doctor's slot set, and `originalTimeSlot ≠ newTimeSlot`, `modify`
answers the Conflict error exactly when some appointment other than the
located one of the same doctor holds `newTimeSlot`; when the two slots are
equal the scan matches the located appointment itself and the Conflict
error always fires. -/
theorem modify_conflict_check_of_ne (s : Store) (e o n : String) (apt : Appointment)
    (he : e ≠ "") (ho : o ≠ "") (hn : n ≠ "")
    (hfind : findAppointment s e o = some apt)
    (doc : Doctor) (hdoc : doctors.find? (fun x => x.name == apt.doctorName) = some doc)
    (hslot : doc.slots.contains n = true)
    (hne : o ≠ n) :
    ((modify s (some e) (some o) (some n)).1 =
        Except.error ⟨400, "New time slot is already booked"⟩ ↔
      ∃ a ∈ s, a ≠ apt ∧ a.doctorName = apt.doctorName ∧ a.timeSlot = n) := by
  have hslotApt : apt.timeSlot = o := by
    have h1 := List.find?_some hfind
    simp [findPred, ho] at h1
    exact h1.2
  unfold modify
  simp only [truthy, val, Option.getD_some]
  rw [if_pos (by simp [he, ho, hn])]
  rw [hfind]
  simp only [hdoc]
  rw [if_pos hslot]
  by_cases hany : s.any (conflictPred apt.doctorName n) = true
  · rw [if_pos hany]
    refine iff_of_true rfl ?_
    obtain ⟨a, ha, hc⟩ := List.any_eq_true.mp hany
    simp only [conflictPred, Bool.and_eq_true, beq_iff_eq] at hc
    refine ⟨a, ha, ?_, hc.1, hc.2⟩
    intro haeq
    rw [haeq] at hc
    exact hne (hslotApt.symm.trans hc.2)
  · rw [if_neg hany]
    have hno := List.any_eq_false.mp (Bool.eq_false_iff.mpr hany)
    refine iff_of_false (by simp) ?_
    rintro ⟨a, ha, _, hd, ht⟩
    exact absurd (by simp [conflictPred, hd, ht] : conflictPred apt.doctorName n a = true)
      (hno a ha)

/-- Witness for `modify_conflict_check_of_ne`: on the Ann/Jane store,
moving Ann from 9-10 to Jane's 2-3 slot conflicts exactly because Jane,
a different appointment of the same doctor, holds the slot. -/
theorem modify_conflict_check_witness :
    ((modify annJaneStore (some "a@b.c") (some "9:00 AM - 10:00 AM")
        (some "2:00 PM - 3:00 PM")).1 =
      Except.error ⟨400, "New time slot is already booked"⟩ ↔
      ∃ a ∈ annJaneStore, a ≠ aptAnn ∧ a.doctorName = aptAnn.doctorName ∧
        a.timeSlot = "2:00 PM - 3:00 PM") :=
  modify_conflict_check_of_ne annJaneStore "a@b.c" "9:00 AM - 10:00 AM" "2:00 PM - 3:00 PM"
    aptAnn (by decide) (by decide) (by decide) (by decide) drSmith (by decide)
    (by decide) (by decide)

/-- C4: a booking whose five fields are present and nonempty, whose email
is valid, whose doctor is in the catalog, whose slot belongs to that
doctor, and whose (doctor, slot) pair is free, appends exactly one
appointment to the end of the store — fields verbatim from the request,
id equal to the pre-insertion count plus one — and returns it (HTTP 201,
the `Except.ok` outcome); in particular the returned email is the request
email. -/
theorem book_success_spec (s : Store) (f l e t d : String) (doc : Doctor)
    (hf : f ≠ "") (hl : l ≠ "") (he : e ≠ "") (ht : t ≠ "") (hd : d ≠ "")
    (hev : isValidEmail e = true)
    (hdoc : doctors.find? (fun x => x.name == d) = some doc)
    (hslot : doc.slots.contains t = true)
    (hconf : s.find? (conflictPred d t) = none) :
    book s (some f) (some l) (some e) (some t) (some d) =
      (Except.ok { patient := { firstName := f, lastName := l, email := e },
                   timeSlot := t, doctorName := d, id := s.length + 1 },
       s ++ [{ patient := { firstName := f, lastName := l, email := e },
               timeSlot := t, doctorName := d, id := s.length + 1 }]) := by
  unfold book
  simp only [truthy, val, Option.getD_some]
  rw [if_pos (by simp [hf, hl, he, ht, hd])]
  rw [if_pos hev]
  simp only [hdoc]
  rw [if_pos hslot, hconf]
  simp [newAppointment, val]

/-- Witness for `book_success_spec`: Ann's booking on the empty store. -/
theorem book_success_witness :
    book ([] : Store) (some "Ann") (some "A") (some "a@b.c") (some "9:00 AM - 10:00 AM")
      (some "Dr. Smith") =
      (Except.ok { patient := { firstName := "Ann", lastName := "A", email := "a@b.c" },
                   timeSlot := "9:00 AM - 10:00 AM", doctorName := "Dr. Smith",
                   id := 1 },
       [] ++ [{ patient := { firstName := "Ann", lastName := "A", email := "a@b.c" },
                timeSlot := "9:00 AM - 10:00 AM", doctorName := "Dr. Smith",
                id := 1 }]) :=
  book_success_spec [] "Ann" "A" "a@b.c" "9:00 AM - 10:00 AM" "Dr. Smith" drSmith
    (by decide) (by decide) (by decide) (by decide) (by decide) (by decide)
    (by decide) (by decide) (by rfl)

/-- C5: `book` checks its failure conditions in a fixed order and returns
the first applicable error with the store unchanged: a missing field, then
a malformed email, then an unknown doctor, then a slot outside the
doctor's set, then an already-booked (doctor, slot) pair. -/
theorem book_error_order :
    (∀ (s : Store) (f l e t d : Option String),
      (f = none ∨ l = none ∨ e = none ∨ t = none ∨ d = none) →
      book s f l e t d = (Except.error ⟨400, "All fields are required"⟩, s)) ∧
    (∀ (s : Store) (f l e t d : String), f ≠ "" → l ≠ "" → e ≠ "" → t ≠ "" → d ≠ "" →
      isValidEmail e = false →
      book s (some f) (some l) (some e) (some t) (some d) =
        (Except.error ⟨400, "Invalid email format"⟩, s)) ∧
    (∀ (s : Store) (f l e t d : String), f ≠ "" → l ≠ "" → e ≠ "" → t ≠ "" → d ≠ "" →
      isValidEmail e = true →
      doctors.find? (fun x => x.name == d) = none →
      book s (some f) (some l) (some e) (some t) (some d) =
        (Except.error ⟨404, "Doctor not found"⟩, s)) ∧
    (∀ (s : Store) (f l e t d : String) (doc : Doctor),
      f ≠ "" → l ≠ "" → e ≠ "" → t ≠ "" → d ≠ "" →
      isValidEmail e = true →
      doctors.find? (fun x => x.name == d) = some doc →
      doc.slots.contains t = false →
      book s (some f) (some l) (some e) (some t) (some d) =
        (Except.error ⟨400, "Invalid or unavailable time slot"⟩, s)) ∧
    (∀ (s : Store) (f l e t d : String) (doc : Doctor) (apt : Appointment),
      f ≠ "" → l ≠ "" → e ≠ "" → t ≠ "" → d ≠ "" →
      isValidEmail e = true →
      doctors.find? (fun x => x.name == d) = some doc →
      doc.slots.contains t = true →
      s.find? (conflictPred d t) = some apt →
      book s (some f) (some l) (some e) (some t) (some d) =
        (Except.error ⟨400, "Time slot already booked"⟩, s)) := by
  refine ⟨?_, ?_, ?_, ?_, ?_⟩
  · intro s f l e t d h
    rcases h with rfl | rfl | rfl | rfl | rfl <;> simp [book, truthy]
  · intro s f l e t d hf hl he ht hd hev
    unfold book
    simp only [truthy, val, Option.getD_some]
    rw [if_pos (by simp [hf, hl, he, ht, hd]), if_neg (by simp [hev])]
  · intro s f l e t d hf hl he ht hd hev hdoc
    unfold book
    simp only [truthy, val, Option.getD_some]
    rw [if_pos (by simp [hf, hl, he, ht, hd]), if_pos hev, hdoc]
  · intro s f l e t d doc hf hl he ht hd hev hdoc hslot
    unfold book
    simp only [truthy, val, Option.getD_some]
    rw [if_pos (by simp [hf, hl, he, ht, hd]), if_pos hev]
    simp only [hdoc]
    rw [if_neg (by rw [hslot]; exact Bool.false_ne_true)]
  · intro s f l e t d doc apt hf hl he ht hd hev hdoc hslot hconf
    unfold book
    simp only [truthy, val, Option.getD_some]
    rw [if_pos (by simp [hf, hl, he, ht, hd]), if_pos hev]
    simp only [hdoc]
    rw [if_pos hslot, hconf]

/-- Witness for `book_error_order`: each of the five errors at a concrete
input, in the documented order of precedence. -/
theorem book_error_order_witness :
    book [] none none none none none =
      (Except.error ⟨400, "All fields are required"⟩, []) ∧
    book [] (some "John") (some "Doe") (some "invalid-email")
        (some "9:00 AM - 10:00 AM") (some "Dr. Smith") =
      (Except.error ⟨400, "Invalid email format"⟩, []) ∧
    book [] (some "John") (some "Doe") (some "john@example.com")
        (some "9:00 AM - 10:00 AM") (some "Dr. NonExistent") =
      (Except.error ⟨404, "Doctor not found"⟩, []) ∧
    book [] (some "John") (some "Doe") (some "john@example.com")
        (some "11:00 AM - 12:00 PM") (some "Dr. Smith") =
      (Except.error ⟨400, "Invalid or unavailable time slot"⟩, []) ∧
    book selfStore (some "John") (some "Doe") (some "john@example.com")
        (some "9:00 AM - 10:00 AM") (some "Dr. Smith") =
      (Except.error ⟨400, "Time slot already booked"⟩, selfStore) :=
  ⟨book_error_order.1 [] none none none none none (Or.inl rfl),
   book_error_order.2.1 [] "John" "Doe" "invalid-email" "9:00 AM - 10:00 AM" "Dr. Smith"
     (by decide) (by decide) (by decide) (by decide) (by decide) (by decide),
   book_error_order.2.2.1 [] "John" "Doe" "john@example.com" "9:00 AM - 10:00 AM"
     "Dr. NonExistent" (by decide) (by decide) (by decide) (by decide) (by decide)
     (by decide) (by decide),
   book_error_order.2.2.2.1 [] "John" "Doe" "john@example.com" "11:00 AM - 12:00 PM"
     "Dr. Smith" drSmith (by decide) (by decide) (by decide) (by decide) (by decide)
     (by decide) (by decide) (by decide),
   book_error_order.2.2.2.2 selfStore "John" "Doe" "john@example.com"
     "9:00 AM - 10:00 AM" "Dr. Smith" drSmith aptAnn (by decide) (by decide) (by decide)
     (by decide) (by decide) (by decide) (by decide) (by decide) (by decide)⟩

/-- C6: whenever book, cancel or modify answers an error, the store after
the call is exactly the store before it. -/
theorem errors_leave_store_unchanged :
    (∀ (s : Store) (f l e t d : Option String) (err : ErrorResp),
      (book s f l e t d).1 = Except.error err → (book s f l e t d).2 = s) ∧
    (∀ (s : Store) (e t : Option String) (err : ErrorResp),
      (cancel s e t).1 = Except.error err → (cancel s e t).2 = s) ∧
    (∀ (s : Store) (e o n : Option String) (err : ErrorResp),
      (modify s e o n).1 = Except.error err → (modify s e o n).2 = s) := by
  refine ⟨?_, ?_, ?_⟩
  · intro s f l e t d err h
    rcases book_cases s f l e t d with ⟨err', heq⟩ | ⟨_, heq⟩
    · rw [heq]
    · rw [heq] at h; simp at h
  · intro s e t err h
    rcases cancel_cases s e t with ⟨err', heq⟩ | ⟨i, _, heq⟩
    · rw [heq]
    · rw [heq] at h; simp at h
  · intro s e o n err h
    rcases modify_cases s e o n with ⟨err', heq⟩ | ⟨apt, _, _, heq⟩
    · rw [heq]
    · rw [heq] at h; simp at h

/-- Witness for `errors_leave_store_unchanged`: one failing call of each
handler on the empty store. -/
theorem errors_leave_store_unchanged_witness :
    (book [] none none none none none).2 = [] ∧
    (cancel [] none none).2 = [] ∧
    (DoctorApp.modify [] none none none).2 = [] :=
  ⟨errors_leave_store_unchanged.1 [] none none none none none
     ⟨400, "All fields are required"⟩ rfl,
   errors_leave_store_unchanged.2.1 [] none none
     ⟨400, "Email and time slot are required"⟩ rfl,
   errors_leave_store_unchanged.2.2 [] none none none
     ⟨400, "All fields are required"⟩ rfl⟩

/-- C7: `listByPatient` rejects a malformed email with 400, answers 404
when no stored appointment carries the email, and otherwise returns
exactly the filtered appointments in insertion order; being a pure
function of the store, it leaves the appointment list unchanged. -/
theorem listByPatient_spec (s : Store) (email : String) :
    (isValidEmail email = false →
      listByPatient s email = Except.error ⟨400, "Invalid email format"⟩) ∧
    (isValidEmail email = true →
      s.filter (fun apt => apt.patient.email == email) = [] →
      listByPatient s email = Except.error ⟨404, "No appointments found"⟩) ∧
    (isValidEmail email = true →
      s.filter (fun apt => apt.patient.email == email) ≠ [] →
      listByPatient s email =
        Except.ok (s.filter (fun apt => apt.patient.email == email))) := by
  refine ⟨?_, ?_, ?_⟩
  · intro h1
    simp [listByPatient, h1]
  · intro h1 h2
    simp [listByPatient, h1, h2]
  · intro h1 h2
    simp [listByPatient, h1, List.length_eq_zero, h2]

/-- Witness for `listByPatient_spec`: all three outcomes on concrete
stores and emails. -/
theorem listByPatient_witness :
    listByPatient selfStore "invalid-email" =
      Except.error ⟨400, "Invalid email format"⟩ ∧
    listByPatient selfStore "q@q.q" = Except.error ⟨404, "No appointments found"⟩ ∧
    listByPatient selfStore "a@b.c" =
      Except.ok (selfStore.filter (fun apt => apt.patient.email == "a@b.c")) :=
  ⟨(listByPatient_spec selfStore "invalid-email").1 (by decide),
   (listByPatient_spec selfStore "q@q.q").2.1 (by decide) (by decide),
   (listByPatient_spec selfStore "a@b.c").2.2 (by decide) (by decide)⟩

/-- `cancel` on a store with no (email, timeSlot) match answers 404 and
leaves the store unchanged. -/
theorem cancel_no_match (s : Store) (e t : String) (he : e ≠ "") (ht : t ≠ "")
    (h : ∀ a ∈ s, cancelPred e t a = false) :
    cancel s (some e) (some t) = (Except.error ⟨404, "Appointment not found"⟩, s) := by
  unfold cancel
  rw [if_pos (by simp [truthy, he, ht])]
  have hnone : s.findIdx? (cancelPred (val (some e)) (val (some t))) = none := by
    simp only [val, Option.getD_some]
    exact List.findIdx?_eq_none_iff.mpr h
  rw [hnone]

/-- C8: with both fields present, `cancel` answers 404 and keeps the store
when nothing matches (email, timeSlot); when exactly one appointment
matches, it removes exactly that appointment, keeps every other
appointment in relative order, and succeeds — so cancelling the same pair
twice yields success and then 404. -/
theorem cancel_spec :
    (∀ (s : Store) (e t : String), e ≠ "" → t ≠ "" →
      (∀ a ∈ s, cancelPred e t a = false) →
      cancel s (some e) (some t) = (Except.error ⟨404, "Appointment not found"⟩, s)) ∧
    (∀ (pre post : Store) (apt : Appointment) (e t : String), e ≠ "" → t ≠ "" →
      (∀ b ∈ pre, cancelPred e t b = false) → cancelPred e t apt = true →
      (∀ b ∈ post, cancelPred e t b = false) →
      cancel (pre ++ apt :: post) (some e) (some t) =
        (Except.ok "Appointment cancelled successfully", pre ++ post) ∧
      cancel (pre ++ post) (some e) (some t) =
        (Except.error ⟨404, "Appointment not found"⟩, pre ++ post)) := by
  refine ⟨cancel_no_match, ?_⟩
  intro pre post apt e t he ht hpre ha hpost
  constructor
  · unfold cancel
    rw [if_pos (by simp [truthy, he, ht])]
    have hidx : (pre ++ apt :: post).findIdx? (cancelPred (val (some e)) (val (some t))) =
        some pre.length := by
      simp only [val, Option.getD_some]
      exact findIdx?_append_cons hpre ha
    rw [hidx]
    simp only [eraseIdx_append_cons]
  · refine cancel_no_match (pre ++ post) e t he ht ?_
    intro b hb
    rcases List.mem_append.mp hb with h1 | h1
    · exact hpre b h1
    · exact hpost b h1

/-- Witness for `cancel_spec`: cancelling Ann on the Ann/Jane store
removes exactly her appointment, and a second identical cancel answers
404; a cancel on the empty store answers 404. -/
theorem cancel_spec_witness :
    cancel ([] : Store) (some "a@b.c") (some "9:00 AM - 10:00 AM") =
      (Except.error ⟨404, "Appointment not found"⟩, []) ∧
    cancel ([] ++ aptAnn :: [aptJane]) (some "a@b.c") (some "9:00 AM - 10:00 AM") =
      (Except.ok "Appointment cancelled successfully", [] ++ [aptJane]) ∧
    cancel ([] ++ [aptJane]) (some "a@b.c") (some "9:00 AM - 10:00 AM") =
      (Except.error ⟨404, "Appointment not found"⟩, [] ++ [aptJane]) := by
  have h2 := cancel_spec.2 [] [aptJane] aptAnn "a@b.c" "9:00 AM - 10:00 AM"
    (by decide) (by decide) (by decide) (by decide) (by decide)
  exact ⟨cancel_spec.1 [] "a@b.c" "9:00 AM - 10:00 AM" (by decide) (by decide)
    (by decide), h2.1, h2.2⟩

/-- C9: a successful `modify` changes only the located appointment's
`timeSlot`: its id, patient and doctorName are untouched, every other
appointment and the list order are preserved, nothing is added or
removed, and the returned appointment is the located one with the new
slot. -/
theorem modify_success_frame (pre post : Store) (apt : Appointment) (e o n : String)
    (he : e ≠ "") (ho : o ≠ "") (hn : n ≠ "")
    (hpre : ∀ b ∈ pre, findPred e o b = false)
    (ha : findPred e o apt = true)
    (doc : Doctor)
    (hdoc : doctors.find? (fun x => x.name == apt.doctorName) = some doc)
    (hslot : doc.slots.contains n = true)
    (hany : (pre ++ apt :: post).any (conflictPred apt.doctorName n) = false) :
    modify (pre ++ apt :: post) (some e) (some o) (some n) =
      (Except.ok { apt with timeSlot := n },
       pre ++ { apt with timeSlot := n } :: post) := by
  unfold modify
  simp only [truthy, val, Option.getD_some]
  rw [if_pos (by simp [he, ho, hn])]
  have hfind : findAppointment (pre ++ apt :: post) e o = some apt :=
    find?_append_cons hpre ha
  rw [hfind]
  simp only [hdoc]
  rw [if_pos hslot, if_neg (by rw [hany]; exact Bool.false_ne_true)]
  rw [updateFirstSlot_append_cons _ _ _ _ _ _ hpre ha]

/-- Witness for `modify_success_frame`: moving Ann from 9-10 to the free
10-11 slot on the Ann/Jane store rewrites only her slot and keeps Jane. -/
theorem modify_success_frame_witness :
    modify ([] ++ aptAnn :: [aptJane]) (some "a@b.c") (some "9:00 AM - 10:00 AM")
        (some "10:00 AM - 11:00 AM") =
      (Except.ok { aptAnn with timeSlot := "10:00 AM - 11:00 AM" },
       [] ++ { aptAnn with timeSlot := "10:00 AM - 11:00 AM" } :: [aptJane]) :=
  modify_success_frame [] [aptJane] aptAnn "a@b.c" "9:00 AM - 10:00 AM"
    "10:00 AM - 11:00 AM" (by decide) (by decide) (by decide) (by decide) (by decide)
    drSmith (by decide) (by decide) (by decide)

/-- C10: `book` treats an empty-string field exactly like an absent one:
any empty field yields the 400 missing-fields error with the store
unchanged, so an empty email is never reported as a bad format. -/
theorem book_empty_field_is_missing (s : Store) (f l e t d : Option String)
    (h : f = some "" ∨ l = some "" ∨ e = some "" ∨ t = some "" ∨ d = some "") :
    book s f l e t d = (Except.error ⟨400, "All fields are required"⟩, s) := by
  rcases h with rfl | rfl | rfl | rfl | rfl <;> simp [book, truthy]

/-- Witness for `book_empty_field_is_missing`: an empty email among
otherwise valid fields is answered as a missing field. -/
theorem book_empty_field_witness :
    book ([] : Store) (some "John") (some "Doe") (some "")
        (some "9:00 AM - 10:00 AM") (some "Dr. Smith") =
      (Except.error ⟨400, "All fields are required"⟩, []) :=
  book_empty_field_is_missing [] (some "John") (some "Doe") (some "")
    (some "9:00 AM - 10:00 AM") (some "Dr. Smith") (Or.inr (Or.inr (Or.inl rfl)))

end DoctorApp
